import Mathlib

/-!
# Verification of the crewai-scheduler repository

Shallow embedding of the repository's core logic:

* `src/agents.py` — `_subtasks_from_llm_output` (the text-to-subtask parser),
  `_schedule_from_executor_output`, and `plan_and_execute` (orchestration);
* `src/async_io.py` — `save_schedule`, `load_schedule`, `mock_async_calendar_block`
  (persistence gateway and notification loop);
* `src/main.py` — the concurrent fan-out of persistence and notification;
* the domain model (`models.py`, not shipped under `src/`) — `Goal`, `SubTask`,
  `Schedule` and `Schedule.with_time_blocks`, modelled from the spec.

Python strings are modelled as `List Char` (wrapped in `String` at the API
boundary).  Timestamps are modelled as natural numbers counting minutes, and
durations as minutes; JSON documents as an inductive `Json` type, with the
exact round-trip of Python's `json.dumps`/`json.loads` (an external library)
abstracted away by letting the store hold `Json` values.
-/

namespace CrewScheduler

/-! ## Python string primitives -/

/-- The characters Python's `str.splitlines` treats as line boundaries
(`\r\n` is additionally handled as a single boundary in `pySplitlines`). -/
def isLineBreak (c : Char) : Bool :=
  c = '\n' || c = '\r' || c = '\x0b' || c = '\x0c' ||
  c = '\x1c' || c = '\x1d' || c = '\x1e' || c = '\x85' ||
  c = ' ' || c = ' '

/-- The individually listed whitespace characters of Python's `str.isspace`
(the U+2000 block is handled as a range in `pyIsSpace`). -/
def pySpaceChars : List Char :=
  [' ', '\t', '\n', '\r', '\x0b', '\x0c',
   '\x1c', '\x1d', '\x1e', '\x1f', '\x85', '\xa0',
   '\u1680', '\u2028', '\u2029', '\u202f', '\u205f', '\u3000']

/-- Whitespace for Python's default `str.strip()` / truthiness filter
(`str.isspace`): ASCII whitespace plus the Unicode space characters. -/
def pyIsSpace (c : Char) : Bool :=
  c ∈ pySpaceChars || ('\u2000' ≤ c && c ≤ '\u200a')

/-- The character set of Python's `str.strip("- ")`. -/
def dashSpace (c : Char) : Bool := c = '-' || c = ' '

/-- `str.strip(chars)`: drop characters satisfying `p` from both ends. -/
def stripP (p : Char → Bool) (l : List Char) : List Char :=
  ((l.dropWhile p).reverse.dropWhile p).reverse

/-- Worker for `pySplitlines`; `acc` is the current line, reversed.  A
`"\r\n"` pair is a single boundary; a boundary at the end of input opens no
further line. -/
def splitlinesGo : List Char → List Char → List (List Char)
  | [], acc => [acc.reverse]
  | [c], acc => if isLineBreak c then [acc.reverse] else [(c :: acc).reverse]
  | c1 :: c2 :: rest, acc =>
      if c1 = '\r' && c2 = '\n' then
        acc.reverse :: (if rest.isEmpty then [] else splitlinesGo rest [])
      else if isLineBreak c1 then
        acc.reverse :: splitlinesGo (c2 :: rest) []
      else splitlinesGo (c2 :: rest) (c1 :: acc)

/-- Python's `str.splitlines()`: split at line boundaries, a trailing
boundary producing no extra empty line, and `""` producing `[]`. -/
def pySplitlines (l : List Char) : List (List Char) :=
  if l.isEmpty then [] else splitlinesGo l []

/-! ## Domain model

`models.py` is not shipped under `src/`; the record shapes below follow the
spec's data model (§3).  Timestamps are minutes (natural numbers). -/

/-- Modelled from the spec: `Goal` from the repository's `models.py` (absent
from `src/`): `title` and `description` strings. -/
structure Goal where
  title : String
  description : String
deriving DecidableEq, Repr

/-- Modelled from the spec: `SubTask` from the repository's `models.py`
(absent from `src/`): identifier, goal back-reference, description, order,
optional estimate in minutes and optional scheduled start/end timestamps. -/
structure SubTask where
  id : String
  goal_title : String
  description : String
  order : Nat
  estimate_minutes : Option Nat := none
  scheduled_start : Option Nat := none
  scheduled_end : Option Nat := none
deriving DecidableEq, Repr

/-- Modelled from the spec: `Schedule` from the repository's `models.py`
(absent from `src/`): a goal plus its ordered subtasks. -/
structure Schedule where
  goal : Goal
  subtasks : List SubTask
deriving DecidableEq, Repr

/-! ## Decimal rendering of naturals (Python's `f"task-{idx}"`) -/

/-- Fuel-driven decimal digits of `n`, most significant first. -/
def natToDecAux : Nat → Nat → List Char
  | 0, n => [Nat.digitChar (n % 10)]
  | fuel + 1, n =>
      if n < 10 then [Nat.digitChar n]
      else natToDecAux fuel (n / 10) ++ [Nat.digitChar (n % 10)]

/-- Decimal representation of a natural number, as Python's `str(n)`. -/
def natToDec (n : Nat) : List Char := natToDecAux n n

/-- The synthetic identifier `f"task-{idx}"`. -/
def taskId (idx : Nat) : String := "task-" ++ ⟨natToDec idx⟩

/-! ## The text-to-subtask parser (`_subtasks_from_llm_output`) -/

/-- One list-comprehension element: `ln.strip("- ").strip()`. -/
def cleanLine (l : List Char) : List Char := stripP pyIsSpace (stripP dashSpace l)

/-- `[ln.strip("- ").strip() for ln in text.splitlines() if ln.strip()]`. -/
def parsedLines (text : List Char) : List (List Char) :=
  ((pySplitlines text).filter (fun ln => !(stripP pyIsSpace ln).isEmpty)).map cleanLine

/-- The anchored regex `^\d+\.`: one or more digits followed by a period at
the start of the line (greedy matching is equivalent here). -/
def numberedMatch (l : List Char) : Bool :=
  let ds := l.takeWhile Char.isDigit
  !ds.isEmpty && ((l.drop ds.length).head? == some '.')

/-- The `SubTask(...)` constructed for a retained line at (1-based) index
`idx` of the enumeration. -/
def mkSubTask (goal : Goal) (idx : Nat) (line : List Char) : SubTask :=
  { id := taskId idx
    goal_title := goal.title
    description := ⟨line⟩
    order := idx }

/-- `_subtasks_from_llm_output` (src/agents.py): split into non-empty
stripped lines, then for `idx, line in enumerate(lines, start=1)` keep only
numbered list items, emitting `SubTask(id=f"task-{idx}", ..., order=idx)`.
Note the enumeration index counts *all* non-empty lines. -/
def subtasksFromLlmOutput (text : String) (goal : Goal) : List SubTask :=
  ((parsedLines text.data).enum).filterMap fun p =>
    if numberedMatch p.2 then some (mkSubTask goal (p.1 + 1) p.2) else none

/-! ## Orchestration (`plan_and_execute`, src/agents.py)

`crew.kickoff` is the external generation collaborator; its outcome is
modelled as an `Except`: `Except.error` for a raised exception, `Except.ok`
for the combined text output.  `plan_and_execute` has no exception handler,
so a raised exception propagates to the caller. -/

/-- `_schedule_from_executor_output` (src/agents.py): unconditional
pass-through keeping the original subtasks. -/
def scheduleFromExecutorOutput (_text : String) (goal : Goal)
    (originalSubtasks : List SubTask) : Schedule :=
  { goal := goal, subtasks := originalSubtasks }

/-- `plan_and_execute` (src/agents.py): run the crew (which may raise),
parse the planner text into subtasks, and build the schedule via the
executor pass-through. -/
def planAndExecute (kickoff : Except String String) (goal : Goal) :
    Except String Schedule :=
  match kickoff with
  | Except.error e => Except.error e
  | Except.ok plannerText =>
      let subtasks := subtasksFromLlmOutput plannerText goal
      Except.ok (scheduleFromExecutorOutput plannerText goal subtasks)

/-! ## Schedule builder (`Schedule.with_time_blocks`, models.py — spec-modelled) -/

/-- Default duration in minutes for a subtask without an estimate (spec §4.2:
"a fixed default duration (policy value, e.g. 30 minutes)"). -/
def defaultDurationMinutes : Nat := 30

/-- Duration assigned to a subtask by the schedule builder: the estimate if
present, else the default. -/
def blockDuration (t : SubTask) : Nat :=
  t.estimate_minutes.getD defaultDurationMinutes

/-- Modelled from the spec: the cursor loop of `Schedule.with_time_blocks`
from the repository's `models.py` (absent from `src/`).  For each subtask:
start = cursor, duration = estimate or the default, end = start + duration,
cursor advances to end. -/
def timeBlockGo (cursor : Nat) : List SubTask → List SubTask
  | [] => []
  | t :: rest =>
      { t with scheduled_start := some cursor,
               scheduled_end := some (cursor + blockDuration t) } ::
        timeBlockGo (cursor + blockDuration t) rest

/-- The ascending-`order` comparison used to sort subtasks before packing. -/
def byOrder (a b : SubTask) : Prop := a.order ≤ b.order

instance : DecidableRel byOrder := fun a b => Nat.decLe a.order b.order

/-- Modelled from the spec: `Schedule.with_time_blocks` from the repository's
`models.py` (absent from `src/`): process the subtasks in ascending `order`
with a cursor starting at `start`, assigning sequential time blocks. -/
def withTimeBlocks (s : Schedule) (start : Nat) : Schedule :=
  { s with subtasks := timeBlockGo start (s.subtasks.insertionSort byOrder) }

/-! ## Persistence gateway (`save_schedule` / `load_schedule`, src/async_io.py)

The durable store maps paths to JSON documents; Python's `json.dumps` /
`json.loads` (an exact inverse pair, external standard library) is abstracted
by letting the store hold the parsed `Json` document. -/

/-- JSON documents (`None` ↦ `null`; pydantic's `model_dump(mode="json")`
serializes every field, absent optionals as `null`). -/
inductive Json where
  | null : Json
  | str (s : String) : Json
  | num (n : Nat) : Json
  | arr (xs : List Json) : Json
  | obj (fields : List (String × Json)) : Json

/-- Field lookup in a JSON object. -/
def Json.getField (j : Json) (key : String) : Option Json :=
  match j with
  | Json.obj fields => (fields.find? (fun p => p.1 == key)).map Prod.snd
  | _ => none

/-- Modelled from the spec: pydantic serialization of a `Goal`
(`model_dump(mode="json")`, record format of §6). -/
def goalToJson (g : Goal) : Json :=
  Json.obj [("title", Json.str g.title), ("description", Json.str g.description)]

/-- Serialization of an optional number: `None` ↦ `null`. -/
def optNatToJson : Option Nat → Json
  | none => Json.null
  | some n => Json.num n

/-- Modelled from the spec: pydantic serialization of a `SubTask` (record
format of §6: id, goal_title, description, order, estimate_minutes?,
scheduled_start?, scheduled_end?). -/
def subTaskToJson (t : SubTask) : Json :=
  Json.obj [("id", Json.str t.id),
            ("goal_title", Json.str t.goal_title),
            ("description", Json.str t.description),
            ("order", Json.num t.order),
            ("estimate_minutes", optNatToJson t.estimate_minutes),
            ("scheduled_start", optNatToJson t.scheduled_start),
            ("scheduled_end", optNatToJson t.scheduled_end)]

/-- Modelled from the spec: pydantic serialization of a `Schedule`. -/
def scheduleToJson (s : Schedule) : Json :=
  Json.obj [("goal", goalToJson s.goal),
            ("subtasks", Json.arr (s.subtasks.map subTaskToJson))]

/-- Deserialization of a string field. -/
def Json.asStr : Json → Option String
  | Json.str s => some s
  | _ => none

/-- Deserialization of a numeric field. -/
def Json.asNum : Json → Option Nat
  | Json.num n => some n
  | _ => none

/-- Deserialization of an optional numeric field (`null` ↦ absent). -/
def Json.asOptNum : Json → Option (Option Nat)
  | Json.null => some none
  | Json.num n => some (some n)
  | _ => none

/-- Modelled from the spec: pydantic validation (`model_validate`) of a
`Goal`; fails on missing or ill-typed fields. -/
def goalFromJson (j : Json) : Option Goal := do
  let title ← (j.getField "title").bind Json.asStr
  let description ← (j.getField "description").bind Json.asStr
  pure { title := title, description := description }

/-- Modelled from the spec: pydantic validation of a `SubTask`. -/
def subTaskFromJson (j : Json) : Option SubTask := do
  let id ← (j.getField "id").bind Json.asStr
  let goalTitle ← (j.getField "goal_title").bind Json.asStr
  let description ← (j.getField "description").bind Json.asStr
  let order ← (j.getField "order").bind Json.asNum
  let est ← (j.getField "estimate_minutes").bind Json.asOptNum
  let sStart ← (j.getField "scheduled_start").bind Json.asOptNum
  let sEnd ← (j.getField "scheduled_end").bind Json.asOptNum
  pure { id := id, goal_title := goalTitle, description := description,
         order := order, estimate_minutes := est,
         scheduled_start := sStart, scheduled_end := sEnd }

/-- Traverse a list with a fallible decoder. -/
def decodeList (f : Json → Option SubTask) : List Json → Option (List SubTask)
  | [] => some []
  | j :: rest => do
      let t ← f j
      let ts ← decodeList f rest
      pure (t :: ts)

/-- Modelled from the spec: pydantic validation of a `Schedule`. -/
def scheduleFromJson (j : Json) : Option Schedule := do
  let goal ← (j.getField "goal").bind goalFromJson
  let subtasksJson ← match j.getField "subtasks" with
    | some (Json.arr xs) => some xs
    | _ => none
  let subtasks ← decodeList subTaskFromJson subtasksJson
  pure { goal := goal, subtasks := subtasks }

/-- Paths of the durable store. -/
def FilePath' := String

/-- The durable store: a map from paths to parsed JSON documents. -/
def Store := String → Option Json

/-- `save_schedule` (src/async_io.py): write a payload
`{"saved_at": now, "schedule": schedule}` at `path`, overwriting any
existing record. -/
def saveSchedule (store : Store) (path : String) (now : String)
    (schedule : Schedule) : Store :=
  fun p =>
    if p = path then
      some (Json.obj [("saved_at", Json.str now), ("schedule", scheduleToJson schedule)])
    else store p

/-- Failure conditions of `load_schedule`: `FileNotFoundError`, or a
`KeyError`/pydantic `ValidationError` on a malformed record. -/
inductive LoadError where
  | notFound : LoadError
  | malformed : LoadError
deriving DecidableEq, Repr

/-- `load_schedule` (src/async_io.py): raise `FileNotFoundError` if no record
exists at the path, otherwise read the document, take its `"schedule"` field
and validate it. -/
def loadSchedule (store : Store) (path : String) : Except LoadError Schedule :=
  match store path with
  | none => Except.error LoadError.notFound
  | some doc =>
      match (doc.getField "schedule").bind scheduleFromJson with
      | none => Except.error LoadError.malformed
      | some s => Except.ok s

/-! ## Byte-level write model of `save_schedule` (for cancellation analysis)

`save_schedule` opens the target with `mode="w"` — which truncates or
creates the file — and then performs a single write of the serialized
payload (`json.dumps` output, modelled abstractly as the string `payload`).
Cancellation between the open and the write leaves the truncated file. -/

/-- One file-system effect of `save_schedule`'s write path. -/
inductive WriteStep where
  | truncate : WriteStep
  | write (content : String) : WriteStep

/-- Apply one step to a file state (`none` = file absent). -/
def applyStep (fs : Option String) : WriteStep → Option String
  | WriteStep.truncate => some ""
  | WriteStep.write s => some (fs.getD "" ++ s)

/-- Run a sequence of write steps. -/
def runSteps (fs : Option String) (steps : List WriteStep) : Option String :=
  steps.foldl applyStep fs

/-- The file-system effects of `save_schedule` (src/async_io.py):
`open(path, mode="w")` truncates, then the payload is written. -/
def saveScheduleWriteSteps (payload : String) : List WriteStep :=
  [WriteStep.truncate, WriteStep.write payload]

/-! ## Notification loop and concurrent fan-out
(`mock_async_calendar_block`, src/async_io.py; `async_main`, src/main.py)

The external calendar call's per-task outcome is an oracle
`outcome : SubTask → Bool` (`false` = the call raises).  The loop body has
no exception handler, so the first failing call propagates and aborts the
loop. -/

/-- `mock_async_calendar_block` (src/async_io.py): iterate the subtasks,
attempting the calendar call for each; returns the attempted subtasks in
order and whether the loop completed without an exception. -/
def calendarBlockAttempts (outcome : SubTask → Bool) :
    List SubTask → List SubTask × Bool
  | [] => ([], true)
  | t :: rest =>
      if outcome t then
        let r := calendarBlockAttempts outcome rest
        (t :: r.1, r.2)
      else ([t], false)

/-- The `asyncio.gather(save_schedule(...), mock_async_calendar_block(...))`
fan-out of `async_main` (src/main.py): both side effects are dispatched and
run to completion independently (`gather` does not cancel the sibling task
when one raises). -/
def gatherSaveAndNotify (store : Store) (path : String) (now : String)
    (schedule : Schedule) (outcome : SubTask → Bool) :
    Store × (List SubTask × Bool) :=
  (saveSchedule store path now schedule,
   calendarBlockAttempts outcome schedule.subtasks)

/-! ## Auxiliary definitions used in statements -/

/-- The cursor position before the `i`-th subtask of the packing. -/
def cursorAt (start : Nat) (l : List SubTask) (i : Nat) : Nat :=
  start + ((l.take i).map blockDuration).sum

/-- Decimal evaluation of a digit string (left inverse of `natToDec`). -/
def decVal (l : List Char) : Nat :=
  l.foldl (fun a c => 10 * a + (c.toNat - 48)) 0

/-- Python's `"\n".join(descriptions)` on the underlying character lists. -/
def joinData : List (List Char) → List Char
  | [] => []
  | [d] => d
  | d :: d' :: rest => d ++ '\n' :: joinData (d' :: rest)

/-- Python's `"\n".join(descriptions)`. -/
def joinLines (ss : List String) : String := ⟨joinData (ss.map String.data)⟩

/-! ## Concrete fixtures -/

/-- A concrete goal for closed instances. -/
def exGoal : Goal := { title := "Launch personal blog", description := "A blog" }

/-- End-to-end scenario 1 raw text. -/
def scenario1Text : String :=
  "1. Buy domain\n2. Write content\nSome heading\n3. Publish site"

/-- A store with no record at any path. -/
def emptyStore : Store := fun _ => none

/-- A concrete subtask for the notification counterexample. -/
def exTask1 : SubTask :=
  { id := "task-1", goal_title := "Launch personal blog",
    description := "1. Buy domain", order := 1 }

/-- A second concrete subtask for the notification counterexample. -/
def exTask2 : SubTask :=
  { id := "task-2", goal_title := "Launch personal blog",
    description := "2. Write content", order := 2 }

/-- End-to-end scenario 3 subtasks: estimates 15, absent, absent. -/
def exPlanned : List SubTask :=
  [{ id := "task-1", goal_title := "Launch personal blog",
     description := "1. Buy domain", order := 1, estimate_minutes := some 15 },
   { id := "task-2", goal_title := "Launch personal blog",
     description := "2. Write content", order := 2 },
   { id := "task-3", goal_title := "Launch personal blog",
     description := "3. Publish site", order := 3 }]

/-- A concrete schedule with optional fields both present and absent. -/
def exSchedule : Schedule :=
  { goal := exGoal
    subtasks := [{ id := "task-1", goal_title := "Launch personal blog",
                   description := "1. Buy domain", order := 1,
                   estimate_minutes := some 15, scheduled_start := some 540,
                   scheduled_end := some 555 },
                 { id := "task-2", goal_title := "Launch personal blog",
                   description := "2. Write content", order := 2 }] }

/-! ## Helper lemmas -/

theorem calendarBlockAttempts_spec (outcome : SubTask → Bool) (l : List SubTask) :
    (calendarBlockAttempts outcome l).1 =
      l.takeWhile outcome ++ (l.dropWhile outcome).take 1 ∧
    (calendarBlockAttempts outcome l).2 = (l.dropWhile outcome).isEmpty := by
  induction l with
  | nil => exact ⟨rfl, rfl⟩
  | cons t rest ih =>
      cases h : outcome t <;>
        simp [calendarBlockAttempts, List.takeWhile_cons, List.dropWhile_cons, h,
          ih.1, ih.2]

theorem goalFromJson_goalToJson (g : Goal) : goalFromJson (goalToJson g) = some g := rfl

theorem subTaskFromJson_subTaskToJson (t : SubTask) :
    subTaskFromJson (subTaskToJson t) = some t := by
  cases t with
  | mk i gt d o e s1 s2 => cases e <;> cases s1 <;> cases s2 <;> rfl

theorem decodeList_map_subTaskToJson (l : List SubTask) :
    decodeList subTaskFromJson (l.map subTaskToJson) = some l := by
  induction l with
  | nil => rfl
  | cons t rest ih => simp [decodeList, subTaskFromJson_subTaskToJson, ih]

theorem scheduleFromJson_scheduleToJson (S : Schedule) :
    scheduleFromJson (scheduleToJson S) = some S := by
  cases S with
  | mk g ts =>
      have h1 : (scheduleToJson ⟨g, ts⟩).getField "goal" = some (goalToJson g) := rfl
      have h2 : (scheduleToJson ⟨g, ts⟩).getField "subtasks" =
          some (Json.arr (ts.map subTaskToJson)) := rfl
      simp [scheduleFromJson, h1, h2, goalFromJson_goalToJson,
        decodeList_map_subTaskToJson]

theorem timeBlockGo_length (l : List SubTask) (c : Nat) :
    (timeBlockGo c l).length = l.length := by
  induction l generalizing c with
  | nil => rfl
  | cons t rest ih => simp [timeBlockGo, ih]

theorem cursorAt_cons (start : Nat) (t : SubTask) (rest : List SubTask) (i : Nat) :
    cursorAt start (t :: rest) (i + 1) = cursorAt (start + blockDuration t) rest i := by
  simp [cursorAt, List.take_succ_cons, Nat.add_assoc]

theorem timeBlockGo_get :
    ∀ (l : List SubTask) (c i : Nat) (h : i < (timeBlockGo c l).length)
      (h' : i < l.length),
      (timeBlockGo c l).get ⟨i, h⟩ =
        { l.get ⟨i, h'⟩ with
          scheduled_start := some (cursorAt c l i),
          scheduled_end := some (cursorAt c l (i + 1)) }
  | [], _, i, _, h' => absurd h' (by simp)
  | t :: rest, c, 0, h, h' => by
      simp [timeBlockGo, cursorAt, List.take_succ_cons]
  | t :: rest, c, i + 1, h, h' => by
      have h2 : i < (timeBlockGo (c + blockDuration t) rest).length := by
        simpa [timeBlockGo] using h
      have h2' : i < rest.length := by simpa using h'
      have hL : (timeBlockGo c (t :: rest)).get ⟨i + 1, h⟩ =
          (timeBlockGo (c + blockDuration t) rest).get ⟨i, h2⟩ := by
        simp [timeBlockGo]
      rw [hL, timeBlockGo_get rest (c + blockDuration t) i h2 h2',
        cursorAt_cons, cursorAt_cons]
      rfl

theorem cursorAt_lt (start : Nat) (l : List SubTask) (i : Nat) (h : i < l.length)
    (hpos : ∀ t ∈ l, 0 < blockDuration t) :
    cursorAt start l i < cursorAt start l (i + 1) := by
  have hx : l[i]? = some (l.get ⟨i, h⟩) := by
    rw [List.getElem?_eq_getElem h]
    rfl
  have hp : 0 < blockDuration (l.get ⟨i, h⟩) := hpos _ (List.get_mem l i h)
  simp only [cursorAt, List.take_succ, hx, Option.toList_some, List.map_append,
    List.map_cons, List.map_nil, List.sum_append, List.sum_cons, List.sum_nil]
  omega

theorem filterMap_if_eq {α β : Type} (f : α → β) (q : α → Bool) (l : List α) :
    l.filterMap (fun a => if q a then some (f a) else none) = (l.filter q).map f := by
  induction l with
  | nil => rfl
  | cons a l ih =>
      cases h : q a <;> simp [List.filterMap_cons, List.filter_cons, h, ih]

theorem subtasksFromLlmOutput_eq (text : String) (g : Goal) :
    subtasksFromLlmOutput text g =
      (((parsedLines text.data).enum).filter (fun p => numberedMatch p.2)).map
        (fun p => mkSubTask g (p.1 + 1) p.2) :=
  filterMap_if_eq _ _ _

theorem enumFrom_filter_map_snd (q : List Char → Bool) :
    ∀ (lines : List (List Char)) (n : Nat),
      ((List.enumFrom n lines).filter (fun p => q p.2)).map Prod.snd =
        lines.filter q := by
  intro lines
  induction lines with
  | nil => intro n; rfl
  | cons x xs ih =>
      intro n
      cases h : q x <;>
        simp [List.enumFrom, List.filter_cons, h, ih (n + 1)]

theorem subtasks_descriptions (text : String) (g : Goal) :
    (subtasksFromLlmOutput text g).map SubTask.description =
      ((parsedLines text.data).filter numberedMatch).map
        (fun l => (⟨l⟩ : String)) := by
  rw [subtasksFromLlmOutput_eq, List.map_map]
  have h1 : (SubTask.description ∘ fun p : Nat × List Char => mkSubTask g (p.1 + 1) p.2) =
      ((fun l => (⟨l⟩ : String)) ∘ Prod.snd) := rfl
  rw [h1, ← List.map_map]
  have h2 : (parsedLines text.data).enum = List.enumFrom 0 (parsedLines text.data) := rfl
  rw [h2, enumFrom_filter_map_snd]

theorem subtasks_orders (text : String) (g : Goal) :
    (subtasksFromLlmOutput text g).map SubTask.order =
      (((parsedLines text.data).enum).filter (fun p => numberedMatch p.2)).map
        (fun p => p.1 + 1) := by
  rw [subtasksFromLlmOutput_eq, List.map_map]
  rfl

theorem pairwise_fst_lt_enumFrom {α : Type} :
    ∀ (l : List α) (n : Nat),
      List.Pairwise (fun p q : Nat × α => p.1 < q.1) (List.enumFrom n l) := by
  intro l
  induction l with
  | nil => intro n; exact List.Pairwise.nil
  | cons x xs ih =>
      intro n
      refine List.Pairwise.cons ?_ (ih (n + 1))
      intro q hq
      obtain ⟨i, y⟩ := q
      exact lt_of_lt_of_le (Nat.lt_succ_self n) (List.mem_enumFrom hq).1

theorem digitChar_dec : ∀ d < 10, (Nat.digitChar d).toNat - 48 = d := by decide

theorem decVal_natToDecAux : ∀ (fuel n : Nat), n ≤ fuel →
    decVal (natToDecAux fuel n) = n := by
  intro fuel
  induction fuel with
  | zero =>
      intro n hn
      have : n = 0 := Nat.le_zero.mp hn
      subst this
      decide
  | succ fuel ih =>
      intro n hn
      by_cases h : n < 10
      · simp only [natToDecAux, if_pos h]
        have := digitChar_dec n h
        simp [decVal]
        omega
      · simp only [natToDecAux, if_neg h]
        have hrec : n / 10 ≤ fuel := by
          have h10 : n / 10 < n := Nat.div_lt_self (by omega) (by omega)
          omega
        have hmod := digitChar_dec (n % 10) (Nat.mod_lt n (by omega))
        simp only [decVal, List.foldl_append, List.foldl_cons, List.foldl_nil]
        have hih := ih (n / 10) hrec
        simp only [decVal] at hih
        rw [hih]
        omega

theorem natToDec_inj (a b : Nat) (h : natToDec a = natToDec b) : a = b := by
  have ha := decVal_natToDecAux a a le_rfl
  have hb := decVal_natToDecAux b b le_rfl
  unfold natToDec at h
  rw [h, hb] at ha
  exact ha.symm

theorem taskId_inj (a b : Nat) (h : taskId a = taskId b) : a = b := by
  have hdata : "task-".data ++ natToDec a = "task-".data ++ natToDec b := by
    have := congrArg String.data h
    simpa [taskId, String.data_append] using this
  exact natToDec_inj a b (List.append_cancel_left hdata)

theorem head?_dropWhile_not (p : Char → Bool) :
    ∀ (l : List Char) (c : Char), (l.dropWhile p).head? = some c → p c = false := by
  intro l
  induction l with
  | nil => intro c h; simp at h
  | cons a l ih =>
      intro c h
      rw [List.dropWhile_cons] at h
      by_cases ha : p a = true
      · rw [if_pos ha] at h
        exact ih c h
      · rw [if_neg ha] at h
        have hac : a = c := by simpa using h
        subst hac
        cases hpa : p a
        · rfl
        · exact absurd hpa ha

theorem getLast?_stripP_not (p : Char → Bool) (l : List Char) (c : Char)
    (h : (stripP p l).getLast? = some c) : p c = false := by
  unfold stripP at h
  rw [List.getLast?_reverse] at h
  exact head?_dropWhile_not p _ c h

theorem stripP_eq_self (p : Char → Bool) (l : List Char)
    (h1 : ∀ c, l.head? = some c → p c = false)
    (h2 : ∀ c, l.getLast? = some c → p c = false) :
    stripP p l = l := by
  cases l with
  | nil => rfl
  | cons a l' =>
      have ha : p a = false := h1 a rfl
      have hdw1 : List.dropWhile p (a :: l') = a :: l' := by
        rw [List.dropWhile_cons, if_neg (by simp [ha])]
      unfold stripP
      rw [hdw1]
      cases hr : (a :: l').reverse with
      | nil => exact absurd hr (by simp)
      | cons b r' =>
          have hb : p b = false := by
            apply h2
            rw [← List.head?_reverse, hr]
            rfl
          have hdw2 : List.dropWhile p (b :: r') = b :: r' := by
            rw [List.dropWhile_cons, if_neg (by simp [hb])]
          rw [hdw2, ← hr, List.reverse_reverse]

theorem mem_stripP (p : Char → Bool) (c : Char) (l : List Char)
    (h : c ∈ stripP p l) : c ∈ l := by
  unfold stripP at h
  rw [List.mem_reverse] at h
  have h2 := (List.dropWhile_sublist p).subset h
  rw [List.mem_reverse] at h2
  exact (List.dropWhile_sublist p).subset h2

theorem splitlinesGo_no_break :
    ∀ (d acc : List Char), (∀ c ∈ d, isLineBreak c = false) →
      splitlinesGo d acc = [acc.reverse ++ d] := by
  intro d
  induction d with
  | nil => intro acc _; simp [splitlinesGo]
  | cons c d' ih =>
      intro acc hd
      have hc : isLineBreak c = false := hd c (List.mem_cons_self c d')
      cases d' with
      | nil => simp [splitlinesGo, hc]
      | cons c2 rest =>
          have hcr : c ≠ '\r' := by
            intro heq
            rw [heq] at hc
            exact absurd hc (by decide)
          have hstep : splitlinesGo (c :: c2 :: rest) acc =
              splitlinesGo (c2 :: rest) (c :: acc) := by
            simp [splitlinesGo, hcr, hc]
          rw [hstep, ih (c :: acc) (fun c' h' => hd c' (List.mem_cons_of_mem c h'))]
          simp

theorem splitlinesGo_append_newline :
    ∀ (d : List Char) (acc rest : List Char),
      (∀ c ∈ d, isLineBreak c = false) →
      splitlinesGo (d ++ '\n' :: rest) acc =
        (acc.reverse ++ d) ::
          (if rest.isEmpty then [] else splitlinesGo rest []) := by
  intro d
  induction d with
  | nil =>
      intro acc rest _
      have hbn : isLineBreak '\n' = true := by decide
      cases rest with
      | nil => simp [splitlinesGo, hbn]
      | cons r rs =>
          have hnr : ('\n' : Char) ≠ '\r' := by decide
          simp [splitlinesGo, hnr, hbn]
  | cons c d' ih =>
      intro acc rest hd
      have hc : isLineBreak c = false := hd c (List.mem_cons_self c d')
      have hcr : c ≠ '\r' := by
        intro heq
        rw [heq] at hc
        exact absurd hc (by decide)
      obtain ⟨y, ys, hys⟩ : ∃ y ys, d' ++ '\n' :: rest = y :: ys :=
        List.exists_cons_of_ne_nil (by simp)
      have hstep : splitlinesGo (c :: (d' ++ '\n' :: rest)) acc =
          splitlinesGo (d' ++ '\n' :: rest) (c :: acc) := by
        rw [hys]
        simp [splitlinesGo, hcr, hc]
      rw [List.cons_append, hstep,
        ih (c :: acc) rest (fun c' h' => hd c' (List.mem_cons_of_mem c h'))]
      simp

theorem splitlinesGo_break_free :
    ∀ (l acc : List Char), (∀ c ∈ acc, isLineBreak c = false) →
      ∀ ln ∈ splitlinesGo l acc, ∀ c ∈ ln, isLineBreak c = false := by
  intro l acc
  induction l, acc using splitlinesGo.induct with
  | case1 acc =>
      intro hacc ln hln c hc
      simp [splitlinesGo] at hln
      subst hln
      exact hacc c (List.mem_reverse.mp hc)
  | case2 c0 acc hbrk =>
      intro hacc ln hln c hc
      simp [splitlinesGo, hbrk] at hln
      subst hln
      exact hacc c (List.mem_reverse.mp hc)
  | case3 c0 acc hbrk =>
      intro hacc ln hln c hc
      simp [splitlinesGo, hbrk] at hln
      subst hln
      rcases List.mem_append.mp hc with hm | hm
      · exact hacc c (List.mem_reverse.mp hm)
      · have hcc : c = c0 := by simpa using hm
        subst hcc
        cases hb : isLineBreak c
        · rfl
        · exact absurd hb hbrk
  | case4 c1 c2 rest acc hrn ih =>
      intro hacc ln hln c hc
      have heq : splitlinesGo (c1 :: c2 :: rest) acc =
          acc.reverse :: (if rest.isEmpty then [] else splitlinesGo rest []) := by
        simp [splitlinesGo, hrn]
      rw [heq] at hln
      rcases List.mem_cons.mp hln with rfl | h2
      · exact hacc c (List.mem_reverse.mp hc)
      · by_cases hre : rest.isEmpty = true
        · rw [if_pos hre] at h2
          exact absurd h2 (List.not_mem_nil ln)
        · rw [if_neg hre] at h2
          exact ih (fun c' h' => absurd h' (List.not_mem_nil c')) ln h2 c hc
  | case5 c1 c2 rest acc hrn hbrk ih =>
      intro hacc ln hln c hc
      have heq : splitlinesGo (c1 :: c2 :: rest) acc =
          acc.reverse :: splitlinesGo (c2 :: rest) [] := by
        simp [splitlinesGo, hrn, hbrk]
      rw [heq] at hln
      rcases List.mem_cons.mp hln with rfl | h2
      · exact hacc c (List.mem_reverse.mp hc)
      · exact ih (fun c' h' => absurd h' (List.not_mem_nil c')) ln h2 c hc
  | case6 c1 c2 rest acc hrn hbrk ih =>
      intro hacc ln hln c hc
      have heq : splitlinesGo (c1 :: c2 :: rest) acc =
          splitlinesGo (c2 :: rest) (c1 :: acc) := by
        simp [splitlinesGo, hrn, hbrk]
      rw [heq] at hln
      refine ih ?_ ln hln c hc
      intro c' h'
      rcases List.mem_cons.mp h' with rfl | hmem
      · cases hb : isLineBreak c'
        · rfl
        · exact absurd hb hbrk
      · exact hacc c' hmem

theorem pySplitlines_break_free (l : List Char) :
    ∀ ln ∈ pySplitlines l, ∀ c ∈ ln, isLineBreak c = false := by
  unfold pySplitlines
  by_cases h : l.isEmpty = true
  · rw [if_pos h]
    intro ln hln
    exact absurd hln (List.not_mem_nil ln)
  · rw [if_neg h]
    exact splitlinesGo_break_free l []
      (fun c hc => absurd hc (List.not_mem_nil c))

theorem joinData_cons_ne_nil (d : List Char) (ds : List (List Char))
    (hd : d ≠ []) : joinData (d :: ds) ≠ [] := by
  cases ds with
  | nil => simpa [joinData] using hd
  | cons d2 rest => simp [joinData]

theorem pySplitlines_joinData :
    ∀ (ds : List (List Char)),
      (∀ d ∈ ds, d ≠ [] ∧ ∀ c ∈ d, isLineBreak c = false) →
      pySplitlines (joinData ds) = ds := by
  intro ds
  induction ds with
  | nil => intro _; rfl
  | cons d rest ih =>
      intro h
      obtain ⟨hdne, hdbf⟩ := h d (List.mem_cons_self d rest)
      cases rest with
      | nil =>
          show pySplitlines (joinData [d]) = [d]
          have hJ : joinData [d] = d := rfl
          rw [hJ]
          unfold pySplitlines
          rw [if_neg (by simpa [List.isEmpty_iff] using hdne),
            splitlinesGo_no_break d [] hdbf]
          simp
      | cons d2 rest2 =>
          have hne2 : joinData (d2 :: rest2) ≠ [] :=
            joinData_cons_ne_nil d2 rest2 (h d2 (by simp)).1
          have hJ : joinData (d :: d2 :: rest2) =
              d ++ '\n' :: joinData (d2 :: rest2) := rfl
          unfold pySplitlines
          rw [if_neg (by simp [hJ]), hJ,
            splitlinesGo_append_newline d [] (joinData (d2 :: rest2)) hdbf,
            if_neg (by simpa [List.isEmpty_iff] using hne2)]
          have ih2 := ih (fun x hx => h x (List.mem_cons_of_mem d hx))
          unfold pySplitlines at ih2
          rw [if_neg (by simpa [List.isEmpty_iff] using hne2)] at ih2
          rw [ih2]
          simp

theorem isDigit_not_dashSpace (c : Char) (h : c.isDigit = true) :
    dashSpace c = false := by
  cases hd : dashSpace c
  · rfl
  · exfalso
    have hm : c = '-' ∨ c = ' ' := by simpa [dashSpace] using hd
    rcases hm with rfl | rfl
    · exact absurd h (by decide)
    · exact absurd h (by decide)

theorem isDigit_not_pyIsSpace (c : Char) (h : c.isDigit = true) :
    pyIsSpace c = false := by
  cases hs : pyIsSpace c
  · rfl
  · exfalso
    have hm : c ∈ pySpaceChars ∨ (' ' ≤ c ∧ c ≤ ' ') := by
      simpa [pyIsSpace] using hs
    rcases hm with hm | ⟨hlo, _⟩
    · fin_cases hm <;> exact absurd h (by decide)
    · have h9 : c ≤ '9' := by
        have hd := h
        simp [Char.isDigit] at hd
        exact hd.2
      exact absurd (le_trans hlo h9) (by decide)

theorem numberedMatch_head_digit (l : List Char) (h : numberedMatch l = true) :
    l ≠ [] ∧ ∀ c, l.head? = some c → c.isDigit = true := by
  cases l with
  | nil => exact absurd h (by decide)
  | cons a l' =>
      refine ⟨by simp, ?_⟩
      intro c hc
      have hca : a = c := by simpa using hc
      subst hca
      by_contra hda
      have hda' : a.isDigit = false := by
        cases hd2 : a.isDigit
        · rfl
        · exact absurd hd2 hda
      simp [numberedMatch, List.takeWhile_cons, hda'] at h

theorem parsedLines_retained_props (text : String) :
    ∀ d ∈ (parsedLines text.data).filter numberedMatch,
      numberedMatch d = true ∧ d ≠ [] ∧ (∀ c ∈ d, isLineBreak c = false) ∧
      (∀ c, d.head? = some c → c.isDigit = true) ∧
      (∀ c, d.getLast? = some c → pyIsSpace c = false) := by
  intro d hd
  have hnum : numberedMatch d = true := List.of_mem_filter hd
  have hdm : d ∈ parsedLines text.data := List.mem_of_mem_filter hd
  unfold parsedLines at hdm
  obtain ⟨x, hx, hdx⟩ := List.mem_map.mp hdm
  have hxs : x ∈ pySplitlines text.data := List.mem_of_mem_filter hx
  have hxbf := pySplitlines_break_free text.data x hxs
  obtain ⟨hdne, hhead⟩ := numberedMatch_head_digit d hnum
  subst hdx
  refine ⟨hnum, hdne, ?_, hhead, ?_⟩
  · intro c hc
    exact hxbf c (mem_stripP dashSpace c x (mem_stripP pyIsSpace c _ hc))
  · intro c hc
    exact getLast?_stripP_not pyIsSpace _ c hc

theorem cleanLine_fix (d : List Char) (hne : d ≠ [])
    (hhead : ∀ c, d.head? = some c → c.isDigit = true)
    (hlast : ∀ c, d.getLast? = some c → pyIsSpace c = false)
    (hdash : ∀ c, d.getLast? = some c → c ≠ '-') :
    cleanLine d = d ∧ stripP pyIsSpace d = d := by
  have hws : stripP pyIsSpace d = d := by
    apply stripP_eq_self
    · intro c hc
      exact isDigit_not_pyIsSpace c (hhead c hc)
    · intro c hc
      exact hlast c hc
  have hds : stripP dashSpace d = d := by
    apply stripP_eq_self
    · intro c hc
      exact isDigit_not_dashSpace c (hhead c hc)
    · intro c hc
      have h1 := hlast c hc
      have h2 := hdash c hc
      cases hdc : dashSpace c
      · rfl
      · exfalso
        have hm : c = '-' ∨ c = ' ' := by simpa [dashSpace] using hdc
        rcases hm with rfl | rfl
        · exact h2 rfl
        · exact absurd h1 (by decide)
  constructor
  · show stripP pyIsSpace (stripP dashSpace d) = d
    rw [hds, hws]
  · exact hws

/-! ## Claims -/

/-- C1 counterexample: on the scenario-1 raw text the parser emits the three
expected descriptions but with orders 1, 2, 4 (and ids task-1, task-2,
task-4) — the position among *all* non-empty lines — not orders 1, 2, 3 as
the claim states. -/
theorem parser_orders_cex :
    (subtasksFromLlmOutput scenario1Text exGoal).map SubTask.description =
      ["1. Buy domain", "2. Write content", "3. Publish site"] ∧
    (subtasksFromLlmOutput scenario1Text exGoal).map SubTask.order = [1, 2, 4] ∧
    (subtasksFromLlmOutput scenario1Text exGoal).map SubTask.order ≠ [1, 2, 3] ∧
    (subtasksFromLlmOutput scenario1Text exGoal).map SubTask.id =
      ["task-1", "task-2", "task-4"] := by
  refine ⟨by decide, by decide, by decide, by decide⟩

/-- C1 (amended): each emitted SubTask's `order` (and the numeric suffix of
its `id`) equals its 1-based position among *all* non-empty stripped lines
(retained or not), so orders are increasing but need not be contiguous; the
descriptions are exactly the retained numbered lines in order, and on the
scenario-1 text the result has descriptions as claimed with orders 1, 2, 4. -/
theorem parser_orders_rank_among_all_lines (text : String) (g : Goal) :
    ((subtasksFromLlmOutput text g).map SubTask.description =
      ((parsedLines text.data).filter numberedMatch).map
        (fun l => (⟨l⟩ : String))) ∧
    ((subtasksFromLlmOutput text g).map SubTask.order =
      (((parsedLines text.data).enum).filter (fun p => numberedMatch p.2)).map
        (fun p => p.1 + 1)) ∧
    (subtasksFromLlmOutput scenario1Text exGoal).map SubTask.description =
      ["1. Buy domain", "2. Write content", "3. Publish site"] ∧
    (subtasksFromLlmOutput scenario1Text exGoal).map SubTask.order = [1, 2, 4] :=
  ⟨subtasks_descriptions text g, subtasks_orders text g, by decide, by decide⟩

/-- C10: along the parser's output, `order` values are strictly increasing
(hence unique, though not necessarily contiguous), `id` values are pairwise
distinct, and every subtask's id is the string `task-` followed by the
decimal rendering of its own order. -/
theorem parser_invariants (text : String) (g : Goal) :
    List.Pairwise (fun a b : SubTask => a.order < b.order)
      (subtasksFromLlmOutput text g) ∧
    List.Pairwise (fun a b : SubTask => a.id ≠ b.id)
      (subtasksFromLlmOutput text g) ∧
    ∀ t ∈ subtasksFromLlmOutput text g, t.id = taskId t.order := by
  have hpw : List.Pairwise (fun p q : Nat × List Char => p.1 < q.1)
      ((parsedLines text.data).enum) := pairwise_fst_lt_enumFrom _ 0
  have hfil := hpw.filter (fun p => numberedMatch p.2)
  rw [subtasksFromLlmOutput_eq]
  refine ⟨?_, ?_, ?_⟩
  · exact hfil.map _ (fun a b hab => Nat.succ_lt_succ hab)
  · refine hfil.map _ (fun a b hab => ?_)
    intro hid
    have := taskId_inj _ _ hid
    omega
  · intro t ht
    obtain ⟨p, _, rfl⟩ := List.mem_map.mp ht
    rfl

/-- C8: the parser is total — it returns a (possibly empty) list for every
raw text input — and empty input yields the empty sequence. -/
theorem parser_total_and_empty_input_yields_nil (text : String) (g : Goal) :
    (∃ ts : List SubTask, subtasksFromLlmOutput text g = ts) ∧
    subtasksFromLlmOutput "" g = [] :=
  ⟨⟨_, rfl⟩, rfl⟩

/-- C2 counterexample: a raised collaborator exception propagates out of
`plan_and_execute` — the pipeline does not return a Schedule at all, let
alone one with zero subtasks. -/
theorem plan_and_execute_error_fatal_cex :
    planAndExecute (Except.error "boom") exGoal = Except.error "boom" ∧
    (planAndExecute (Except.error "boom") exGoal).isOk = false :=
  ⟨rfl, rfl⟩

/-- C2 (amended): empty planning text degrades to a Schedule with zero
subtasks, but a collaborator exception propagates (it is fatal). -/
theorem plan_and_execute_failure_semantics (g : Goal) (e : String) :
    planAndExecute (Except.error e) g = Except.error e ∧
    planAndExecute (Except.ok "") g = Except.ok { goal := g, subtasks := [] } :=
  ⟨rfl, rfl⟩

/-- C3 counterexample: cancelling `save_schedule` between the truncating
`open(path, mode="w")` and the write leaves the file empty — neither the
previous record nor the new one. -/
theorem interrupted_save_corrupts_cex :
    runSteps (some "old-record")
        ((saveScheduleWriteSteps "new-record-payload").take 1) ≠ some "old-record" ∧
    runSteps (some "old-record")
        ((saveScheduleWriteSteps "new-record-payload").take 1) ≠ some "new-record-payload" := by
  constructor <;> decide

/-- C3 (amended): `save_schedule` writes in place (truncate, then write);
a completed save leaves the full new record, but an interruption after the
truncating open leaves an empty file, which differs from both the previous
content and the new record whenever those are non-empty. -/
theorem save_write_not_atomic (old payload : String)
    (h1 : old ≠ "") (h2 : payload ≠ "") :
    runSteps (some old) (saveScheduleWriteSteps payload) = some payload ∧
    runSteps (some old) ((saveScheduleWriteSteps payload).take 1) = some "" ∧
    (some "" : Option String) ≠ some old ∧
    (some "" : Option String) ≠ some payload := by
  refine ⟨?_, rfl, ?_, ?_⟩
  · show some ("" ++ payload) = some payload
    congr 1
  · intro h
    exact h1 (Option.some.injEq _ _ ▸ h).symm
  · intro h
    exact h2 (Option.some.injEq _ _ ▸ h).symm

/-- C3 witness: the amended statement instantiated at concrete contents. -/
theorem save_write_not_atomic_witness :
    ("old-record" : String) ≠ "" ∧ ("new-record-payload" : String) ≠ "" ∧
    runSteps (some "old-record") (saveScheduleWriteSteps "new-record-payload") =
      some "new-record-payload" :=
  ⟨by decide, by decide,
   (save_write_not_atomic "old-record" "new-record-payload" (by decide) (by decide)).1⟩

/-- C4 counterexample: when the calendar call for the first subtask raises,
the second subtask is never attempted — per-item failures are not isolated
within the notification loop. -/
theorem notify_failure_aborts_rest_cex :
    (calendarBlockAttempts (fun t => t.order != 1) [exTask1, exTask2]).1 = [exTask1] ∧
    exTask2 ∉ (calendarBlockAttempts (fun t => t.order != 1) [exTask1, exTask2]).1 ∧
    (calendarBlockAttempts (fun t => t.order != 1) [exTask1, exTask2]).2 = false := by
  refine ⟨rfl, ?_, rfl⟩
  decide

/-- C4 (amended): a notification failure aborts the attempts for the
remaining subtasks (the attempted list is the prefix up to and including the
first failure), while the concurrently dispatched persistence save still
completes unaffected. -/
theorem notify_prefix_and_save_completes (store : Store) (path now : String)
    (schedule : Schedule) (outcome : SubTask → Bool) :
    (gatherSaveAndNotify store path now schedule outcome).1 =
      saveSchedule store path now schedule ∧
    (gatherSaveAndNotify store path now schedule outcome).2.1 =
      schedule.subtasks.takeWhile outcome ++
        (schedule.subtasks.dropWhile outcome).take 1 ∧
    (gatherSaveAndNotify store path now schedule outcome).2.2 =
      (schedule.subtasks.dropWhile outcome).isEmpty :=
  ⟨rfl, (calendarBlockAttempts_spec outcome schedule.subtasks).1,
   (calendarBlockAttempts_spec outcome schedule.subtasks).2⟩

/-- C7: loading from a path with no record fails with the Not-Found
condition (and hence never returns a Schedule). -/
theorem load_missing_is_not_found (store : Store) (path : String)
    (h : store path = none) :
    loadSchedule store path = Except.error LoadError.notFound := by
  unfold loadSchedule
  rw [h]

/-- C7 witness: loading from the empty store. -/
theorem load_missing_is_not_found_witness :
    emptyStore "schedule.json" = none ∧
    loadSchedule emptyStore "schedule.json" = Except.error LoadError.notFound :=
  ⟨rfl, load_missing_is_not_found emptyStore "schedule.json" rfl⟩

/-- C5 (spec-modelled): for a schedule whose subtasks are sorted by `order`
and whose present estimates are positive, `with_time_blocks` packs
sequential time blocks with a cursor starting at the start time:
start = cursor, end = start + (estimate or the 30-minute default), the
cursor advancing to the end, so consecutive tasks satisfy
`start[i] < end[i] = start[i+1]` (the end is `cursorAt` of the next index,
which is the next task's start). -/
theorem with_time_blocks_sequential_packing (g : Goal) (l : List SubTask)
    (start : Nat) (hsorted : List.Sorted byOrder l)
    (hpos : ∀ t ∈ l, 0 < blockDuration t) :
    (withTimeBlocks ⟨g, l⟩ start).subtasks.length = l.length ∧
    ∀ (i : Nat) (h : i < (withTimeBlocks ⟨g, l⟩ start).subtasks.length)
      (h' : i < l.length),
      ((withTimeBlocks ⟨g, l⟩ start).subtasks.get ⟨i, h⟩).scheduled_start =
        some (cursorAt start l i) ∧
      ((withTimeBlocks ⟨g, l⟩ start).subtasks.get ⟨i, h⟩).scheduled_end =
        some (cursorAt start l (i + 1)) ∧
      ((withTimeBlocks ⟨g, l⟩ start).subtasks.get ⟨i, h⟩).scheduled_end =
        some (blockDuration (l.get ⟨i, h'⟩) + cursorAt start l i) ∧
      cursorAt start l i < cursorAt start l (i + 1) := by
  have hss : l.insertionSort byOrder = l := hsorted.insertionSort_eq
  have hsub : (withTimeBlocks ⟨g, l⟩ start).subtasks = timeBlockGo start l := by
    simp [withTimeBlocks, hss]
  rw [hsub]
  refine ⟨timeBlockGo_length l start, fun i h h' => ?_⟩
  rw [timeBlockGo_get l start i h h']
  refine ⟨rfl, rfl, ?_, cursorAt_lt start l i h' hpos⟩
  have hx : l[i]? = some (l.get ⟨i, h'⟩) := by
    rw [List.getElem?_eq_getElem h']
    rfl
  simp only [cursorAt, List.take_succ, hx, Option.toList_some, List.map_append,
    List.map_cons, List.map_nil, List.sum_append, List.sum_cons, List.sum_nil]
  congr 1
  omega

/-- C5 witness: the end-to-end scenario-3 instance — three subtasks with
estimates 15, absent, absent and start time 09:00 (minute 540 of
2024-01-01) receive starts 09:00, 09:15, 09:45 and ends 09:15, 09:45,
10:15. -/
theorem with_time_blocks_sequential_packing_witness :
    List.Sorted byOrder exPlanned ∧
    (∀ t ∈ exPlanned, 0 < blockDuration t) ∧
    (withTimeBlocks ⟨exGoal, exPlanned⟩ 540).subtasks.length = exPlanned.length ∧
    (withTimeBlocks ⟨exGoal, exPlanned⟩ 540).subtasks.map
        (fun t => (t.scheduled_start, t.scheduled_end)) =
      [(some 540, some 555), (some 555, some 585), (some 585, some 615)] :=
  ⟨by decide, by decide,
   (with_time_blocks_sequential_packing exGoal exPlanned 540 (by decide) (by decide)).1,
   by decide⟩

/-- C6: a load immediately after a save at the same path reconstructs the
schedule exactly, optional fields included (absent stays absent, present
stays present). -/
theorem save_load_round_trip (store : Store) (path now : String) (S : Schedule) :
    loadSchedule (saveSchedule store path now S) path = Except.ok S := by
  have hs : saveSchedule store path now S path =
      some (Json.obj [("saved_at", Json.str now), ("schedule", scheduleToJson S)]) := by
    simp [saveSchedule]
  have hg : (Json.obj [("saved_at", Json.str now),
      ("schedule", scheduleToJson S)]).getField "schedule" = some (scheduleToJson S) := rfl
  simp [loadSchedule, hs, hg, scheduleFromJson_scheduleToJson]

/-- C9 counterexample: the parser is not idempotent on its own output.  On
the raw text `"1. x -\t"` the produced description is `"1. x -"` (the tab
is stripped by `.strip()`, exposing a trailing dash that `.strip("- ")` did
not see); re-running the parser on that description strips the dash and
yields `"1. x"` instead. -/
theorem parser_not_idempotent_cex :
    (subtasksFromLlmOutput "1. x -\t" exGoal).map SubTask.description =
      ["1. x -"] ∧
    joinLines ["1. x -"] = "1. x -" ∧
    (subtasksFromLlmOutput "1. x -" exGoal).map SubTask.description =
      ["1. x"] ∧
    (["1. x"] : List String) ≠ ["1. x -"] := by
  refine ⟨by decide, by decide, by decide, by decide⟩

/-- C9 (amended): the parser is idempotent on its own output provided no
produced description ends with a `-` character (as is the case for all
clean numbered output): re-running the parser on the newline-concatenation
of the produced descriptions yields the same descriptions in the same
order. -/
theorem parser_idempotent_on_dash_free (text : String) (g g' : Goal)
    (hnd : ∀ s ∈ (subtasksFromLlmOutput text g).map SubTask.description,
        s.data.getLast? ≠ some '-') :
    (subtasksFromLlmOutput
        (joinLines ((subtasksFromLlmOutput text g).map SubTask.description))
        g').map SubTask.description =
      (subtasksFromLlmOutput text g).map SubTask.description := by
  have hds := subtasks_descriptions text g
  have hdata : ((subtasksFromLlmOutput text g).map SubTask.description).map
      String.data = (parsedLines text.data).filter numberedMatch := by
    rw [hds, List.map_map]
    have hcomp : (String.data ∘ fun l : List Char => (⟨l⟩ : String)) = id := rfl
    rw [hcomp, List.map_id]
  have hprops := parsedLines_retained_props text
  have hdash : ∀ d ∈ (parsedLines text.data).filter numberedMatch,
      ∀ c, d.getLast? = some c → c ≠ '-' := by
    intro d hd c hc heq
    subst heq
    have hmemS : (⟨d⟩ : String) ∈
        (subtasksFromLlmOutput text g).map SubTask.description := by
      rw [hds]
      exact List.mem_map.mpr ⟨d, hd, rfl⟩
    exact hnd _ hmemS hc
  have hfix : ∀ d ∈ (parsedLines text.data).filter numberedMatch,
      cleanLine d = d ∧ stripP pyIsSpace d = d := by
    intro d hd
    obtain ⟨_, hne, _, hhead, hlast⟩ := hprops d hd
    exact cleanLine_fix d hne hhead hlast (fun c hc => hdash d hd c hc)
  have hsplit : pySplitlines
      (joinData ((parsedLines text.data).filter numberedMatch)) =
      (parsedLines text.data).filter numberedMatch := by
    apply pySplitlines_joinData
    intro d hd
    obtain ⟨_, hne, hbf, _, _⟩ := hprops d hd
    exact ⟨hne, hbf⟩
  have hjoin : (joinLines ((subtasksFromLlmOutput text g).map
      SubTask.description)).data =
      joinData ((parsedLines text.data).filter numberedMatch) := by
    rw [joinLines, ← hdata]
  have hlines : parsedLines (joinLines ((subtasksFromLlmOutput text g).map
      SubTask.description)).data =
      (parsedLines text.data).filter numberedMatch := by
    rw [hjoin]
    show ((pySplitlines
        (joinData ((parsedLines text.data).filter numberedMatch))).filter
          (fun ln => !(stripP pyIsSpace ln).isEmpty)).map cleanLine =
      (parsedLines text.data).filter numberedMatch
    rw [hsplit]
    have hfil : ((parsedLines text.data).filter numberedMatch).filter
        (fun ln => !(stripP pyIsSpace ln).isEmpty) =
        (parsedLines text.data).filter numberedMatch := by
      apply List.filter_eq_self.mpr
      intro d hd
      rw [(hfix d hd).2]
      have hne := (hprops d hd).2.1
      simpa [List.isEmpty_iff] using hne
    rw [hfil]
    calc ((parsedLines text.data).filter numberedMatch).map cleanLine
        = ((parsedLines text.data).filter numberedMatch).map id :=
          List.map_congr_left (fun d hd => (hfix d hd).1)
      _ = (parsedLines text.data).filter numberedMatch := List.map_id _
  rw [subtasks_descriptions
    (joinLines ((subtasksFromLlmOutput text g).map SubTask.description)) g',
    hlines]
  have hfil2 : ((parsedLines text.data).filter numberedMatch).filter
      numberedMatch = (parsedLines text.data).filter numberedMatch := by
    apply List.filter_eq_self.mpr
    intro d hd
    exact (hprops d hd).1
  rw [hfil2, ← hdata, List.map_map]
  have hcomp2 : ((fun l : List Char => (⟨l⟩ : String)) ∘ String.data) = id := by
    funext s
    rfl
  rw [hcomp2, List.map_id]

/-- C9 witness: the amended statement instantiated on the scenario-1 text,
whose descriptions end in letters (not dashes). -/
theorem parser_idempotent_on_dash_free_witness :
    (∀ s ∈ (subtasksFromLlmOutput scenario1Text exGoal).map SubTask.description,
        s.data.getLast? ≠ some '-') ∧
    (subtasksFromLlmOutput
        (joinLines ((subtasksFromLlmOutput scenario1Text exGoal).map
          SubTask.description)) exGoal).map SubTask.description =
      (subtasksFromLlmOutput scenario1Text exGoal).map SubTask.description :=
  ⟨by decide,
   parser_idempotent_on_dash_free scenario1Text exGoal exGoal (by decide)⟩

end CrewScheduler
